import Mathlib

/-!
Verification of the AIMHi interview-scheduling system.

This file embeds, in Lean, the parts of the repository that the claims
concern:

* `extract_interview_schedule.py` — the transcript → interview-slot
  extraction pipeline (`extract_interview_slot`, `process_all_transcripts`),
  including a faithful model of the Python `re` searches it performs
  (leftmost match, lazy/greedy backtracking, `re.IGNORECASE`, captures,
  `findall` non-overlapping scanning), of `datetime.strptime`/`strftime`
  for the formats used, and of `dateutil.parser.parse(..., fuzzy=True)`
  restricted to the candidate shapes the pipeline produces.
* `main.py` — the per-call media-relay transcript recording: the handlers
  for caller transcript completions and assistant transcript delta/done
  events (`send_to_twilio`), `write_to_transcript_file`, and
  `close_transcript_file`.

Transcripts handled by the system are ASCII text, so character classes
(`\d`, `\s`, `[A-Za-z]`, `str.lower`) are modelled on ASCII codes.
Strings are modelled as `List Char`; `datetime.now()` is passed in
explicitly as a parameter (the spec requires tests to inject "now").
-/

/-! ### Characters and strings (Python string primitives) -/

/-- ASCII decimal digit, the `\d` class on the ASCII transcripts. -/
def isDigitCh (c : Char) : Bool := decide (48 ≤ c.toNat ∧ c.toNat ≤ 57)

/-- ASCII letter, the `[A-Za-z]` class. -/
def isAlphaCh (c : Char) : Bool :=
  decide ((65 ≤ c.toNat ∧ c.toNat ≤ 90) ∨ (97 ≤ c.toNat ∧ c.toNat ≤ 122))

/-- Python `\s` / `str.strip` whitespace (ASCII). -/
def isPySpace (c : Char) : Bool :=
  decide (c.toNat = 32 ∨ c.toNat = 9 ∨ c.toNat = 10 ∨ c.toNat = 13 ∨
          c.toNat = 11 ∨ c.toNat = 12)

/-- Python `str.lower` on one ASCII character. -/
def pyToLower (c : Char) : Char :=
  if 65 ≤ c.toNat ∧ c.toNat ≤ 90 then Char.ofNat (c.toNat + 32) else c

/-- Python `str.upper` on one ASCII character. -/
def pyToUpper (c : Char) : Char :=
  if 97 ≤ c.toNat ∧ c.toNat ≤ 122 then Char.ofNat (c.toNat - 32) else c

/-- Python `str.lower`. -/
def pyLower (s : List Char) : List Char := s.map pyToLower

/-- Python `str.upper`. -/
def pyUpper (s : List Char) : List Char := s.map pyToUpper

/-- Python substring containment `pat in s`. -/
def containsSub (pat : List Char) : List Char → Bool
  | [] => pat.isEmpty
  | c :: t => pat.isPrefixOf (c :: t) || containsSub pat t

/-- Python `str.strip()` (default whitespace stripping, both ends). -/
def pyStrip (s : List Char) : List Char :=
  ((s.dropWhile isPySpace).reverse.dropWhile isPySpace).reverse

/-- Python `int()` on a run of decimal digit characters. -/
def digitsToNat (s : List Char) : Nat :=
  s.foldl (fun acc c => 10 * acc + (c.toNat - 48)) 0

/-- Decimal rendering of a natural number (`str(n)` / `%d` without padding). -/
def natChars (n : Nat) : List Char := Nat.toDigits 10 n

/-- Python `f"{n:02d}"`: zero-pad to two digits. -/
def pad2 (n : Nat) : List Char :=
  if n < 10 then '0' :: natChars n else natChars n

/-! ### Gregorian calendar, as Python `datetime` exposes it -/

/-- The date part of a Python `datetime`. -/
structure PyDate where
  year : Nat
  month : Nat
  day : Nat
deriving DecidableEq, Repr

def isLeapYear (y : Nat) : Bool :=
  y % 4 = 0 && (y % 100 != 0 || y % 400 = 0)

def daysInMonth (m y : Nat) : Nat :=
  if m = 2 then (if isLeapYear y then 29 else 28)
  else if m = 4 ∨ m = 6 ∨ m = 9 ∨ m = 11 then 30
  else 31

/-- Lexicographic comparison of dates (`datetime` comparison on date parts). -/
def dateLt (a b : PyDate) : Bool :=
  a.year < b.year ||
  (a.year = b.year && (a.month < b.month ||
    (a.month = b.month && a.day < b.day)))

/-- `datetime + timedelta(days=1)`, date part. -/
def nextDay (d : PyDate) : PyDate :=
  if d.day < daysInMonth d.month d.year then { d with day := d.day + 1 }
  else if d.month < 12 then { year := d.year, month := d.month + 1, day := 1 }
  else { year := d.year + 1, month := 1, day := 1 }

/-- The injected `datetime.now()`: its date, plus whether its time-of-day is
past midnight (so that a parsed date carrying a midnight time compares
strictly below `now` on the same day). -/
structure PyNow where
  date : PyDate
  pastMidnight : Bool
deriving DecidableEq, Repr

/-- `parsed_date < datetime.now()` where `parsed_date` sits at midnight. -/
def pyDateTimeLt (d : PyDate) (now : PyNow) : Bool :=
  dateLt d now.date || (d == now.date && now.pastMidnight)

/-! ### A backtracking regular-expression engine (Python `re` semantics)

The engine implements exactly the features the four call sites of
`re` in `extract_interview_schedule.py` use: literal characters (all
letter-containing patterns are compiled with `re.IGNORECASE`), the classes
`\d`, `\s`, `[A-Za-z]`, `.` with and without `re.DOTALL`, concatenation,
alternation (tried left to right), greedy `?`, greedy and lazy `*`
(Python stops iterating a star whose body matched without consuming),
and numbered capture groups.  `reSearchAux` is `re.search`: the leftmost
starting position wins, and within one position the backtracking order
of the pattern decides.  `reFindall` is `re.findall` for a pattern with
a single group: non-overlapping matches scanned left to right. -/

inductive RTok where
  | lit (c : Char)
  | litCI (c : Char)
  | digit
  | space
  | alpha
  | dotNL
  | dotAll
deriving DecidableEq, Repr

def tokMatch : RTok → Char → Bool
  | .lit a, c => a == c
  | .litCI a, c => pyToLower a == pyToLower c
  | .digit, c => isDigitCh c
  | .space, c => isPySpace c
  | .alpha, c => isAlphaCh c
  | .dotNL, c => c != '\n'
  | .dotAll, _ => true

inductive RE where
  | eps
  | tok (t : RTok)
  | seq (a b : RE)
  | alt (a b : RE)
  | opt (a : RE)
  | star (lzy : Bool) (a : RE)
  | group (n : Nat) (a : RE)
deriving DecidableEq, Repr

def reSize : RE → Nat
  | .eps => 1
  | .tok _ => 1
  | .seq a b => reSize a + reSize b + 1
  | .alt a b => reSize a + reSize b + 1
  | .opt a => reSize a + 1
  | .star _ a => reSize a + 1
  | .group _ a => reSize a + 1

/-- Captured groups: `(index, captured text)`, innermost-completed first. -/
abbrev Caps := List (Nat × List Char)

/-- The backtracking matcher in continuation style.  `fuel` bounds the
recursion depth structurally; `reTry` supplies enough fuel that the bound
is never the deciding factor for the patterns and inputs of this program.
The continuation receives the unconsumed input and the captures. -/
def reM (fuel : Nat) (r : RE) (s : List Char) (g : Caps)
    (k : List Char → Caps → Option (List Char × Caps)) :
    Option (List Char × Caps) :=
  match fuel with
  | 0 => none
  | fuel + 1 =>
    match r with
    | .eps => k s g
    | .tok t =>
      match s with
      | [] => none
      | c :: s' => if tokMatch t c then k s' g else none
    | .seq a b => reM fuel a s g (fun s1 g1 => reM fuel b s1 g1 k)
    | .alt a b =>
      (reM fuel a s g k).orElse (fun _ => reM fuel b s g k)
    | .opt a =>
      (reM fuel a s g k).orElse (fun _ => k s g)
    | .star lzy a =>
      if lzy then
        (k s g).orElse (fun _ =>
          reM fuel a s g (fun s1 g1 =>
            if s1.length < s.length then reM fuel (.star lzy a) s1 g1 k
            else none))
      else
        (reM fuel a s g (fun s1 g1 =>
          if s1.length < s.length then reM fuel (.star lzy a) s1 g1 k
          else k s1 g1)).orElse (fun _ => k s g)
    | .group n a =>
      reM fuel a s g (fun s1 g1 =>
        k s1 ((n, s.take (s.length - s1.length)) :: g1))

/-- Fuel that over-approximates the deepest backtracking chain. -/
def fuelFor (r : RE) (s : List Char) : Nat :=
  (s.length + 1) * (reSize r + 1) + reSize r + 1

/-- Try to match `r` at the start of `s`; on success return the matched
text (group 0), the captures, and the rest of the input. -/
def reTry (r : RE) (s : List Char) : Option (List Char × Caps × List Char) :=
  match reM (fuelFor r s) r s [] (fun s1 g => some (s1, g)) with
  | some (s1, g) => some (s.take (s.length - s1.length), g, s1)
  | none => none

/-- `re.search`: leftmost match of `r` in `s`. -/
def reSearchAux (r : RE) : List Char → Option (List Char × Caps × List Char)
  | [] => reTry r []
  | c :: t =>
    match reTry r (c :: t) with
    | some res => some res
    | none => reSearchAux r t

/-- `match.group(n)` (empty for an unbound group, which does not occur
for the patterns of this program on a successful match). -/
def getGroup (g : Caps) (n : Nat) : List Char :=
  match g.find? (fun p => p.1 == n) with
  | some p => p.2
  | none => []

/-- `re.findall` for a pattern with one capturing group: the list of
group-1 captures of the non-overlapping matches, scanned left to right. -/
def reFindallAux (r : RE) : Nat → List Char → List (List Char)
  | 0, _ => []
  | fuel + 1, s =>
    match reSearchAux r s with
    | none => []
    | some (full, g, rest) =>
      if full.isEmpty then
        match rest with
        | [] => [getGroup g 1]
        | _ :: rest' => getGroup g 1 :: reFindallAux r fuel rest'
      else getGroup g 1 :: reFindallAux r fuel rest

def reFindall (r : RE) (s : List Char) : List (List Char) :=
  reFindallAux r (s.length + 1) s

/-! ### The patterns of `extract_interview_slot`, translated node by node -/

def rseq : List RE → RE
  | [] => .eps
  | [r] => r
  | r :: rs => .seq r (rseq rs)

/-- A case-insensitive literal word (every pattern with letters is compiled
with `re.IGNORECASE`). -/
def rlitCI (s : String) : RE := rseq (s.data.map (fun c => .tok (.litCI c)))

def rchar (c : Char) : RE := .tok (.lit c)

def rdig : RE := .tok .digit

/-- `\d{n}`. -/
def rdigN (n : Nat) : RE := rseq (List.replicate n rdig)

/-- `\d{1,2}` (greedy). -/
def rd12 : RE := .seq rdig (.opt rdig)

/-- `\d{0,2}` (greedy). -/
def rd02 : RE := .opt (.seq rdig (.opt rdig))

/-- `\s*`. -/
def rstarSp : RE := .star false (.tok .space)

/-- `\s+`. -/
def rplusSp : RE := .seq (.tok .space) (.star false (.tok .space))

/-- `[A-Za-z]+`. -/
def ralphaPlus : RE := .seq (.tok .alpha) (.star false (.tok .alpha))

/-- `.*?` without `re.DOTALL`. -/
def rlazyDotNL : RE := .star true (.tok .dotNL)

/-- `.*?` under `re.DOTALL`. -/
def rlazyDotAll : RE := .star true (.tok .dotAll)

def raltL : List RE → RE
  | [] => .eps
  | [r] => r
  | r :: rs => .alt r (raltL rs)

/-- `(?:st|nd|rd|th)?`. -/
def rordSfx : RE :=
  .opt (raltL [rlitCI "st", rlitCI "nd", rlitCI "rd", rlitCI "th"])

/-- `confirm.*?interview.*?on\s*(\d{2}-\d{2}-\d{4})\s*at\s*(\d{1,2}:\d{2}\s*(?:AM|PM))`
with `re.IGNORECASE` (line 22 of `extract_interview_schedule.py`). -/
def P_std : RE :=
  rseq [rlitCI "confirm", rlazyDotNL, rlitCI "interview", rlazyDotNL,
        rlitCI "on", rstarSp,
        .group 1 (rseq [rdigN 2, rchar '-', rdigN 2, rchar '-', rdigN 4]),
        rstarSp, rlitCI "at", rstarSp,
        .group 2 (rseq [rd12, rchar ':', rdigN 2, rstarSp,
                        .alt (rlitCI "AM") (rlitCI "PM")])]

/-- `[A-Za-z]+\s+\d{1,2}(?:st|nd|rd|th)?,?\s*\d{4}` — the date phrase shared
by the four legacy patterns and by the first unanchored date grammar. -/
def legacyDateBody : RE :=
  rseq [ralphaPlus, rplusSp, rd12, rordSfx, .opt (rchar ','), rstarSp,
        rdigN 4]

/-- One legacy pattern `<kw>.*?<prep>\s*(<legacyDateBody>)`, searched with
`re.IGNORECASE | re.DOTALL` (lines 25-30). -/
def legacyPat (kw : String) (prep : RE) : RE :=
  rseq [rlitCI kw, rlazyDotAll, prep, rstarSp, .group 1 legacyDateBody]

/-- The legacy patterns, in source order; note the preposition alternation
order differs between the first pattern (`for|on`) and the rest (`on|for`). -/
def legacyPatterns : List RE :=
  [legacyPat "scheduled" (.alt (rlitCI "for") (rlitCI "on")),
   legacyPat "schedule" (.alt (rlitCI "on") (rlitCI "for")),
   legacyPat "meeting" (.alt (rlitCI "on") (rlitCI "for")),
   legacyPat "interview" (.alt (rlitCI "on") (rlitCI "for"))]

/-- `(\d{1,2}[:\.]?\d{0,2}\s*(?:AM|PM|am|pm))` — the time-like substring
pattern (lines 60 and 72), searched with `re.IGNORECASE`. -/
def P_time : RE :=
  .group 1 (rseq [rd12, .opt (.alt (rchar ':') (rchar '.')), rd02, rstarSp,
                  raltL [rlitCI "AM", rlitCI "PM", rlitCI "am", rlitCI "pm"]])

/-- `([A-Za-z]+\s+\d{1,2}(?:st|nd|rd|th)?,?\s*\d{4})` (line 68). -/
def P_date1 : RE := .group 1 legacyDateBody

/-- `(\d{1,2}(?:st|nd|rd|th)?\s+(?:of\s+)?[A-Za-z]+\s+(?:of\s+)?\d{4})`
(line 69). -/
def P_date2 : RE :=
  .group 1 (rseq [rd12, rordSfx, rplusSp, .opt (.seq (rlitCI "of") rplusSp),
                  ralphaPlus, rplusSp, .opt (.seq (rlitCI "of") rplusSp),
                  rdigN 4])

/-- `([A-Za-z]+\s+\d{1,2}(?:st|nd|rd|th)?)` (line 70). -/
def P_date3 : RE := .group 1 (rseq [ralphaPlus, rplusSp, rd12, rordSfx])

/-- `(\d{1,2}):(\d{2})\s*(AM|PM)` with `re.IGNORECASE` (line 140). -/
def P_stdTime : RE :=
  rseq [.group 1 rd12, rchar ':', .group 2 (rdigN 2), rstarSp,
        .group 3 (.alt (rlitCI "AM") (rlitCI "PM"))]

/-- `(\d{1,2})[:.](\d{2})` (line 156). -/
def P_hm : RE :=
  rseq [.group 1 rd12, .alt (rchar ':') (rchar '.'), .group 2 (rdigN 2)]

/-- `(\d{1,2})` (lines 161 and 165). -/
def P_hour : RE := .group 1 rd12

/-! ### Date parsing and formatting (`datetime`, `dateutil`) -/

/-- `datetime.strptime(date_text, '%m-%d-%Y')` on the text captured by the
standardized pattern, which is always exactly `\d{2}-\d{2}-\d{4}`; returns
the validated date or `none` for a `ValueError` (month/day out of range,
year 0). -/
def pyStrptime_mdY : List Char → Option PyDate
  | [m1, m2, '-', d1, d2, '-', y1, y2, y3, y4] =>
    if isDigitCh m1 && isDigitCh m2 && isDigitCh d1 && isDigitCh d2 &&
       isDigitCh y1 && isDigitCh y2 && isDigitCh y3 && isDigitCh y4 then
      let M := digitsToNat [m1, m2]
      let D := digitsToNat [d1, d2]
      let Y := digitsToNat [y1, y2, y3, y4]
      if 1 ≤ M ∧ M ≤ 12 ∧ 1 ≤ Y ∧ 1 ≤ D ∧ D ≤ daysInMonth M Y then
        some ⟨Y, M, D⟩
      else none
    else none
  | _ => none

/-- `parsed_date.strftime('%d-%m-%Y')`: `%d` and `%m` zero-padded to two
digits; `%Y` unpadded (glibc behaviour; every year reaching this call is
four digits anyway). -/
def fmtDate_dmY (d : PyDate) : List Char :=
  pad2 d.day ++ '-' :: (pad2 d.month ++ '-' :: natChars d.year)

/-- `re.search(r'\b(\d{4})\b', s) is not None`: somewhere in `s`, four
digits delimited by word boundaries (`[A-Za-z0-9_]` is a word char). -/
def isWordCh (c : Char) : Bool := isAlphaCh c || isDigitCh c || c == '_'

def fourDigitHere : List Char → Bool
  | a :: b :: c :: d :: rest =>
    isDigitCh a && isDigitCh b && isDigitCh c && isDigitCh d &&
    (match rest with
     | [] => true
     | e :: _ => !isWordCh e)
  | _ => false

def hasFourDigitYearAux (prevWord : Bool) : List Char → Bool
  | [] => false
  | c :: t =>
    (!prevWord && fourDigitHere (c :: t)) || hasFourDigitYearAux (isWordCh c) t

def hasFourDigitYear (s : List Char) : Bool := hasFourDigitYearAux false s

/-! #### `dateutil.parser.parse(text, fuzzy=True)`

Model of the library call, restricted to the token shapes the candidate
grammars of this file produce (month names, 1-2 digit day numbers, ordinal
suffixes, 3-4 digit years, jump words, arbitrary skipped words under
`fuzzy=True`).  Components missing from the text are filled from the
parser's `default`, which `dateutil` sets to the current date at midnight;
a text yielding no component at all, or an invalid calendar date, raises
`ValueError`, modelled as `none`. -/

inductive DTok where
  | word (w : List Char)
  | num (d : List Char)
deriving DecidableEq, Repr

def dtTokenizeAux (cur : Option DTok) : List Char → List DTok
  | [] =>
    match cur with
    | none => []
    | some tk => [tk]
  | c :: t =>
    if isAlphaCh c then
      match cur with
      | some (.word w) => dtTokenizeAux (some (.word (w ++ [c]))) t
      | some tk => tk :: dtTokenizeAux (some (.word [c])) t
      | none => dtTokenizeAux (some (.word [c])) t
    else if isDigitCh c then
      match cur with
      | some (.num d) => dtTokenizeAux (some (.num (d ++ [c]))) t
      | some tk => tk :: dtTokenizeAux (some (.num [c])) t
      | none => dtTokenizeAux (some (.num [c])) t
    else
      match cur with
      | some tk => tk :: dtTokenizeAux none t
      | none => dtTokenizeAux none t

def dtTokenize (s : List Char) : List DTok := dtTokenizeAux none s

/-- `dateutil` month names: full names and three-letter abbreviations. -/
def monthOfName (w : List Char) : Option Nat :=
  let l := pyLower w
  let names : List (String × Nat) :=
    [("january", 1), ("february", 2), ("march", 3), ("april", 4),
     ("may", 5), ("june", 6), ("july", 7), ("august", 8),
     ("september", 9), ("october", 10), ("november", 11), ("december", 12),
     ("jan", 1), ("feb", 2), ("mar", 3), ("apr", 4), ("jun", 6),
     ("jul", 7), ("aug", 8), ("sep", 9), ("oct", 10), ("nov", 11),
     ("dec", 12)]
  match names.find? (fun p => p.1.data == l) with
  | some p => some p.2
  | none => none

structure DtAcc where
  year : Option Nat
  month : Option Nat
  day : Option Nat
deriving DecidableEq, Repr

def dtScan : DtAcc → List DTok → Option DtAcc
  | acc, [] => some acc
  | acc, .word w :: ts =>
    match monthOfName w with
    | some m =>
      match acc.month with
      | none => dtScan { acc with month := some m } ts
      | some _ => none
    | none => dtScan acc ts
  | acc, .num d :: ts =>
    if d.length ≤ 2 then
      match acc.day with
      | none => dtScan { acc with day := some (digitsToNat d) } ts
      | some _ => none
    else if d.length ≤ 4 then
      match acc.year with
      | none => dtScan { acc with year := some (digitsToNat d) } ts
      | some _ => none
    else none

def dateutilParse (today : PyDate) (s : List Char) : Option PyDate :=
  match dtScan ⟨none, none, none⟩ (dtTokenize s) with
  | none => none
  | some acc =>
    if acc.year.isNone ∧ acc.month.isNone ∧ acc.day.isNone then none
    else
      let y := acc.year.getD today.year
      let m := acc.month.getD today.month
      let d := acc.day.getD today.day
      if 1 ≤ y ∧ y ≤ 9999 ∧ 1 ≤ m ∧ m ≤ 12 ∧ 1 ≤ d ∧ d ≤ daysInMonth m y then
        some ⟨y, m, d⟩
      else none

/-! ### The extraction pipeline (`extract_interview_slot`, lines 16-212) -/

inductive FmtType where
  | standardized
  | legacy
  | unanchored
deriving DecidableEq, Repr

/-- The `confirmed_slot` dictionary. -/
structure Slot where
  date_text : List Char
  time_text : List Char
  full_match : List Char
  format_type : FmtType
deriving DecidableEq, Repr

/-- The result dictionary of `extract_interview_slot`. -/
structure ScheduleResult where
  formatted_date : List Char
  formatted_time : List Char
  raw_date_text : List Char
  raw_time_text : List Char
  full_text : List Char
deriving DecidableEq, Repr

/-- Lines 34-42: the standardized stage; on a match, group 1 (stripped),
group 2 (stripped) and the full match. -/
def stdSearch (content : List Char) :
    Option (List Char × List Char × List Char) :=
  match reSearchAux P_std content with
  | some (full, g, _) => some (full, pyStrip (getGroup g 1), pyStrip (getGroup g 2))
  | none => none

/-- Lines 45-56: try the legacy patterns in order; the first pattern that
matches wins with its first (leftmost) match; the inner loop breaks after
one match. -/
def legacySearchList : List RE → List Char → Option (List Char × List Char)
  | [], _ => none
  | p :: ps, content =>
    match reSearchAux p content with
    | some (full, g, _) => some (full, pyStrip (getGroup g 1))
    | none => legacySearchList ps content

/-- Line 60 / line 79: all time-like substrings of the transcript. -/
def timesOf (content : List Char) : List (List Char) := reFindall P_time content

/-- Lines 74-77: the unanchored date candidates, accumulated grammar by
grammar: all matches of the first pattern, then of the second, then of
the third. -/
def datesOf (content : List Char) : List (List Char) :=
  reFindall P_date1 content ++ reFindall P_date2 content ++
    reFindall P_date3 content

/-- Lines 32-86: the three-stage fallback chain producing `confirmed_slot`. -/
def slotOf (content : List Char) : Option Slot :=
  match stdSearch content with
  | some (full, d, t) => some ⟨d, t, full, .standardized⟩
  | none =>
    match legacySearchList legacyPatterns content with
    | some (full, d) =>
      let ts := timesOf content
      some ⟨d, ts.getLastD [], full, .legacy⟩
    | none =>
      let ds := datesOf content
      let ts := timesOf content
      if ds.isEmpty || ts.isEmpty then none
      else
        some ⟨ds.getLastD [], ts.getLastD [],
              ds.getLastD [] ++ " at ".data ++ ts.getLastD [], .unanchored⟩

/-- Lines 103-128: the date branch.  `tomorrow`/`today` resolve against the
injected `now`; standardized dates go through `strptime`; legacy dates with
a four-digit year go through the permissive parser directly; without one,
the current year is substituted and rolled forward only when the parser
reported the placeholder year 1900. -/
def parsedDateOf (now : PyNow) (slot : Slot) : Option PyDate :=
  let dt := slot.date_text
  let lower := pyLower dt
  if containsSub "tomorrow".data lower then some (nextDay now.date)
  else if containsSub "today".data lower then some now.date
  else if slot.format_type == .standardized then pyStrptime_mdY dt
  else if hasFourDigitYear dt then dateutilParse now.date dt
  else
    match dateutilParse now.date dt with
    | none => none
    | some d =>
      if d.year == 1900 then
        let d1 : PyDate := { d with year := now.date.year }
        if pyDateTimeLt d1 now then some { d1 with year := now.date.year + 1 }
        else some d1
      else some d

/-- Lines 129-132: the formatted date, empty when parsing raised. -/
def formattedDateOf (now : PyNow) (slot : Slot) : List Char :=
  match parsedDateOf now slot with
  | some d => fmtDate_dmY d
  | none => []

/-- Lines 138-152: the standardized time branch; the inner search on the
captured time text, 12-hour to 24-hour conversion, and `''` (the field is
left empty) when the inner search fails. -/
def stdTimeParse (time_str : List Char) : Option (Nat × Nat × List Char) :=
  match reSearchAux P_stdTime time_str with
  | some (_, g, _) =>
    some (digitsToNat (getGroup g 1), digitsToNat (getGroup g 2),
          pyUpper (getGroup g 3))
  | none => none

def stdTimeConvert (time_str : List Char) : List Char :=
  match stdTimeParse time_str with
  | none => []
  | some (hours, minutes, am_pm) =>
    let hours :=
      if am_pm == "PM".data && hours != 12 then hours + 12
      else if am_pm == "AM".data && hours == 12 then 0
      else hours
    pad2 hours ++ ':' :: pad2 minutes

/-- Lines 154-175: the legacy time branch: extract hour/minute (minutes
default to 0), then apply AM/PM with no range check on the hour. -/
def legacyTimeConvert (time_str : List Char) : List Char :=
  let hm : Nat × Nat :=
    if time_str.contains ':' || time_str.contains '.' then
      match reSearchAux P_hm time_str with
      | some (_, g, _) => (digitsToNat (getGroup g 1), digitsToNat (getGroup g 2))
      | none =>
        match reSearchAux P_hour time_str with
        | some (_, g, _) => (digitsToNat (getGroup g 1), 0)
        | none => (0, 0)
    else
      match reSearchAux P_hour time_str with
      | some (_, g, _) => (digitsToNat (getGroup g 1), 0)
      | none => (0, 0)
  let lower := pyLower time_str
  let hours :=
    if containsSub "pm".data lower && hm.1 != 12 then hm.1 + 12
    else if containsSub "am".data lower && hm.1 == 12 then 0
    else hm.1
  pad2 hours ++ ':' :: pad2 hm.2

/-- Lines 134-175 dispatch on the slot's format type. -/
def formattedTimeOf (slot : Slot) : List Char :=
  if slot.format_type == .standardized then stdTimeConvert slot.time_text
  else legacyTimeConvert slot.time_text

/-- Lines 89-178: build the result dictionary from the chosen slot; each
`try/except` block degrades its own field to `''` and never interferes
with the other. -/
def processSlot (now : PyNow) (slot : Slot) : ScheduleResult :=
  { formatted_date := formattedDateOf now slot
    formatted_time := formattedTimeOf slot
    raw_date_text := slot.date_text
    raw_time_text := slot.time_text
    full_text := slot.full_match }

/-- The result when no stage produced a slot (all fields `''`). -/
def emptyResult : ScheduleResult := ⟨[], [], [], [], []⟩

/-- The pure core of `extract_interview_slot` applied to the file's text. -/
def extractFromContent (content : List Char) (now : PyNow) : ScheduleResult :=
  match slotOf content with
  | some slot => processSlot now slot
  | none => emptyResult

/-- `extract_interview_slot(path)` with the file system passed explicitly:
a missing file raises `FileNotFoundError`, caught on line 207, returning
`None`. -/
def extract_interview_slot (fs : List Char → Option (List Char))
    (path : List Char) (now : PyNow) : Option ScheduleResult :=
  match fs path with
  | none => none
  | some content => some (extractFromContent content now)

/-- `process_all_transcripts` (lines 214-237), with the directory listing
passed explicitly: per file, append the result only when it is not `None`
(line 234: `if result:` — the result dictionary is always truthy). -/
def process_all_transcripts (fs : List Char → Option (List Char))
    (now : PyNow) (files : List (List Char)) : List ScheduleResult :=
  files.foldl
    (fun acc f =>
      match extract_interview_slot fs f now with
      | some r => acc ++ [r]
      | none => acc) []

/-! ### The per-call transcript relay (`main.py`, `send_to_twilio` handlers)

One call session is modelled with its registry entries present (the
`start` event has opened the session and the transcript sink).  The three
transcript-relevant event kinds of the speech-AI leg are processed exactly
as the handlers on lines 388-456 do; `write_to_transcript_file`
(lines 506-517) appends one `[timestamp] speaker: text` record per call,
modelled as a `(speaker, text)` pair (the wall-clock timestamp carries no
information the claims concern). -/

inductive Speaker where
  | user
  | assistant
deriving DecidableEq, Repr

structure Message where
  speaker : Speaker
  text : List Char
deriving DecidableEq, Repr

structure RelayState where
  messages : List Message
  fileWrites : List (Speaker × List Char)
deriving DecidableEq, Repr

inductive RelayEvent where
  | userTranscriptDone (t : List Char)
  | aiTranscriptDelta (d : List Char)
  | aiTranscriptDone
  | responseDone
deriving DecidableEq, Repr

/-- `bool(s.strip())`: the text has a non-whitespace character. -/
def hasNonBlank (s : List Char) : Bool := s.any (fun c => !isPySpace c)

/-- One event through the `send_to_twilio` handler chain:
`conversation.item.input_audio_transcription.completed` appends and writes
the caller line immediately (lines 388-406);
`response.audio_transcript.delta` accumulates into the last message when
it is an assistant message, else opens a new one, and never writes
(lines 407-430); `response.audio_transcript.done` writes the last message
when it is a non-blank assistant message (lines 431-446); `response.done`
is informational only (lines 447-451). -/
def relayStep (s : RelayState) : RelayEvent → RelayState
  | .userTranscriptDone t =>
    if hasNonBlank t then
      { messages := s.messages ++ [⟨.user, t⟩],
        fileWrites := s.fileWrites ++ [(.user, t)] }
    else s
  | .aiTranscriptDelta d =>
    if d.isEmpty then s
    else
      match s.messages.getLast? with
      | some m =>
        if m.speaker == .assistant then
          { s with messages := s.messages.dropLast ++ [⟨.assistant, m.text ++ d⟩] }
        else { s with messages := s.messages ++ [⟨.assistant, d⟩] }
      | none => { s with messages := s.messages ++ [⟨.assistant, d⟩] }
  | .aiTranscriptDone =>
    match s.messages.getLast? with
    | some m =>
      if m.speaker == .assistant && hasNonBlank m.text then
        { s with fileWrites := s.fileWrites ++ [(.assistant, m.text)] }
      else s
    | none => s
  | .responseDone => s

def relayState0 : RelayState := ⟨[], []⟩

/-- The session's state after processing a sequence of relay events. -/
def relayRun (evs : List RelayEvent) : RelayState :=
  evs.foldl relayStep relayState0

/-- The finalizing-event counter: an independent recursion over the event
sequence that tracks only whether the last buffered message is an
assistant message and whether its accumulated text is non-blank, and
counts the events at which the handlers emit a transcript line (caller
completions with non-blank text; assistant done events arriving while the
assistant buffer is non-blank). -/
structure AbsState where
  lastAssistant : Bool
  bufNonBlank : Bool
  count : Nat
deriving DecidableEq, Repr

def absStep (a : AbsState) : RelayEvent → AbsState
  | .userTranscriptDone t =>
    if hasNonBlank t then
      { lastAssistant := false, bufNonBlank := false, count := a.count + 1 }
    else a
  | .aiTranscriptDelta d =>
    if d.isEmpty then a
    else if a.lastAssistant then
      { a with bufNonBlank := a.bufNonBlank || hasNonBlank d }
    else { a with lastAssistant := true, bufNonBlank := hasNonBlank d }
  | .aiTranscriptDone =>
    if a.lastAssistant && a.bufNonBlank then { a with count := a.count + 1 }
    else a
  | .responseDone => a

def countFinalizing (evs : List RelayEvent) : Nat :=
  (evs.foldl absStep ⟨false, false, 0⟩).count

/-! ### Session teardown (`main.py`, `close_transcript_file`, lines 532-556)

State of one stream id's transcript bookkeeping: whether
`transcript_file_handles` still holds the entry (`handleOpen`), whether
`conversation_transcripts` still holds its entry (`conv`), and the
artifact produced so far (its recorded lines and whether the OS handle
was closed).  `close_transcript_file` checks membership first; when the
entry is present it appends the footer, closes the handle and deletes
both registry entries, and otherwise does nothing.  The whole body is
wrapped in `try/except`, and in this model every step is total, so the
function never raises. -/

inductive TLine where
  | entry (sp : Speaker) (text : List Char)
  | footer
deriving DecidableEq, Repr

structure CloseState where
  handleOpen : Bool
  conv : Bool
  fileLines : List TLine
  fileClosed : Bool
deriving DecidableEq, Repr

def close_transcript_file (s : CloseState) : CloseState :=
  if s.handleOpen then
    { handleOpen := false, conv := false,
      fileLines := s.fileLines ++ [.footer], fileClosed := true }
  else s

/-! ### Fixed inputs used by the concrete theorems below -/

/-- The injected `datetime.now()` of the tests: 2025-10-01, past midnight. -/
def nowOct2025 : PyNow := ⟨⟨2025, 10, 1⟩, true⟩

/-- The round-trip example of the spec (claim C1). -/
def contentConfirm : List Char :=
  "Let me confirm the interview on 06-29-2025 at 04:30 PM".data

/-- A transcript whose only date candidate is the year-free `March 3rd`
(claim C2). -/
def contentMarch3 : List Char := "10:00 AM suits. March 3rd".data

/-- A transcript with two legacy-style date confirmations and two times
(claim C3). -/
def contentTwoLegacy : List Char :=
  ("Your interview is scheduled for January 5th, 2041 at 10:00 AM. " ++
   "Also scheduled for March 9th, 2042 at 3:00 PM.").data

/-- A standardized confirmation whose date does not parse (month 13),
while the time does (claim C7). -/
def contentBadDate : List Char :=
  "Let me confirm the interview on 13-40-2025 at 04:30 PM".data

/-- A slot whose standardized time text defeats the inner time search
while the date parses (claim C7). -/
def slotBadTime : Slot := ⟨"06-29-2025".data, "noon".data, [], .standardized⟩

/-- A legacy transcript whose last time-like substring is `13 PM`
(claim C8). -/
def contentThirteenPM : List Char :=
  "The interview is scheduled for January 5th, 2041. See you at 13 PM.".data

/-- A keyword-free transcript containing `15th of June of 2041` after a
time mention (claim C9). -/
def contentJune15 : List Char := "At 10:00 AM, the 15th of June of 2041".data

/-- The event sequence exhibiting re-finalization: one assistant delta,
then two done events with no fresh delta between them (claim C4). -/
def dupEvents : List RelayEvent :=
  [.aiTranscriptDelta "Hi".data, .aiTranscriptDone, .aiTranscriptDone]

/-- A one-file file system for the batch-processing witness (claim C10). -/
def fsOne : List Char → Option (List Char) :=
  fun p => if p = "a.txt".data then some contentMarch3 else none

/-- The simulation relation between the full relay state and the
finalizing-event counter's abstract state: the counter agrees with the
number of lines written so far, and the abstraction correctly tracks
whether the last buffered message is an assistant message and whether its
text is non-blank. -/
def RelayInv (s : RelayState) (a : AbsState) : Prop :=
  a.count = s.fileWrites.length ∧
  (match s.messages.getLast? with
   | none => a.lastAssistant = false
   | some m =>
     a.lastAssistant = (m.speaker == .assistant) ∧
     (m.speaker = .assistant → a.bufNonBlank = hasNonBlank m.text))

/-! ### Helper lemmas -/

theorem containsSub_head_notMem (c : Char) (p s : List Char) (h : c ∉ s) :
    containsSub (c :: p) s = false := by
  induction s with
  | nil => rfl
  | cons a t ih =>
    have hca : (c == a) = false := by
      simp only [beq_eq_false_iff_ne]
      intro e
      exact h (e ▸ List.mem_cons_self a t)
    have ht : c ∉ t := fun hc => h (List.mem_cons_of_mem a hc)
    simp [containsSub, List.isPrefixOf, hca, ih ht]

theorem pyToLower_ne_t_of_digit (c : Char) (h : isDigitCh c = true) :
    pyToLower c ≠ 't' := by
  have h' : 48 ≤ c.toNat ∧ c.toNat ≤ 57 := of_decide_eq_true h
  unfold pyToLower
  rw [if_neg (by omega)]
  intro e
  subst e
  exact absurd h' (by decide)

theorem strptime_no_t {d : List Char} {pd : PyDate}
    (h : pyStrptime_mdY d = some pd) : 't' ∉ pyLower d := by
  unfold pyStrptime_mdY at h
  split at h
  case _ m1 m2 d1 d2 y1 y2 y3 y4 =>
    split at h
    case isTrue hd =>
      simp only [Bool.and_eq_true] at hd
      obtain ⟨⟨⟨⟨⟨⟨⟨h1, h2⟩, h3⟩, h4⟩, h5⟩, h6⟩, h7⟩, h8⟩ := hd
      intro hmem
      simp only [pyLower, List.map_cons, List.map_nil, List.mem_cons,
                 List.not_mem_nil, or_false] at hmem
      rcases hmem with e | e | e | e | e | e | e | e | e | e <;>
        first
          | exact pyToLower_ne_t_of_digit _ (by assumption) e.symm
          | exact absurd e.symm (by decide)
    case isFalse => exact absurd h (by simp)
  case _ => exact absurd h (by simp)

theorem no_tomorrow_of_strptime {d : List Char} {pd : PyDate}
    (h : pyStrptime_mdY d = some pd) :
    containsSub "tomorrow".data (pyLower d) = false ∧
    containsSub "today".data (pyLower d) = false := by
  have ht := strptime_no_t h
  constructor
  · have e : "tomorrow".data = 't' :: "omorrow".data := rfl
    rw [e]
    exact containsSub_head_notMem 't' _ _ ht
  · have e : "today".data = 't' :: "oday".data := rfl
    rw [e]
    exact containsSub_head_notMem 't' _ _ ht

theorem hasNonBlank_append (x y : List Char) :
    hasNonBlank (x ++ y) = (hasNonBlank x || hasNonBlank y) := by
  simp [hasNonBlank, List.any_append]

theorem relayInv_step (s : RelayState) (a : AbsState) (e : RelayEvent)
    (h : RelayInv s a) : RelayInv (relayStep s e) (absStep a e) := by
  obtain ⟨hc, hm⟩ := h
  cases e with
  | userTranscriptDone t =>
    by_cases hb : hasNonBlank t = true
    · refine ⟨by simp [relayStep, absStep, hb, hc], ?_⟩
      simp [relayStep, absStep, hb, List.getLast?_concat]
    · simp only [Bool.not_eq_true] at hb
      exact ⟨by simp [relayStep, absStep, hb, hc],
             by simp only [RelayInv, relayStep, absStep, hb,
                           Bool.false_eq_true, if_false]; exact hm⟩
  | aiTranscriptDelta d =>
    by_cases hd : d.isEmpty = true
    · exact ⟨by simp [relayStep, absStep, hd, hc],
             by simp only [relayStep, absStep, hd, if_true]; exact hm⟩
    · simp only [Bool.not_eq_true] at hd
      cases hl : s.messages.getLast? with
      | none =>
        rw [hl] at hm
        refine ⟨by simp [relayStep, absStep, hd, hl, hc, hm], ?_⟩
        simp [relayStep, absStep, hd, hl, hm, List.getLast?_concat]
      | some m =>
        rw [hl] at hm
        obtain ⟨hla, hbuf⟩ := hm
        by_cases hsp : (m.speaker == Speaker.assistant) = true
        · have hspe : m.speaker = Speaker.assistant := by simpa using hsp
          refine ⟨by simp [relayStep, absStep, hd, hl, hsp, hc, hla], ?_⟩
          simp [relayStep, absStep, hd, hl, hsp, hla, List.getLast?_concat,
                hasNonBlank_append, hbuf hspe]
        · simp only [Bool.not_eq_true] at hsp
          refine ⟨by simp [relayStep, absStep, hd, hl, hsp, hc, hla], ?_⟩
          simp [relayStep, absStep, hd, hl, hsp, hla, List.getLast?_concat]
  | aiTranscriptDone =>
    cases hl : s.messages.getLast? with
    | none =>
      rw [hl] at hm
      refine ⟨by simp [relayStep, absStep, hl, hc, hm], ?_⟩
      simp only [relayStep, absStep, hl, hm, Bool.false_and,
                 Bool.false_eq_true, if_false]
    | some m =>
      rw [hl] at hm
      obtain ⟨hla, hbuf⟩ := hm
      by_cases hsp : (m.speaker == Speaker.assistant) = true
      · have hspe : m.speaker = Speaker.assistant := by simpa using hsp
        by_cases hnb : hasNonBlank m.text = true
        · refine ⟨by simp [relayStep, absStep, hl, hsp, hnb, hla, hbuf hspe, hc], ?_⟩
          simp only [relayStep, absStep, hl, hsp, hnb, hla, hbuf hspe,
                     Bool.and_self, if_true]
          exact ⟨trivial, fun _ => trivial⟩
        · simp only [Bool.not_eq_true] at hnb
          refine ⟨by simp [relayStep, absStep, hl, hsp, hnb, hla, hbuf hspe, hc], ?_⟩
          simp only [relayStep, absStep, hl, hsp, hnb, hla, hbuf hspe,
                     Bool.and_false, Bool.false_eq_true, if_false]
          exact ⟨trivial, fun _ => trivial⟩
      · simp only [Bool.not_eq_true] at hsp
        refine ⟨by simp [relayStep, absStep, hl, hsp, hla, hc], ?_⟩
        simp only [relayStep, absStep, hl, hsp, hla, Bool.false_and,
                   Bool.false_eq_true, if_false]
        exact ⟨trivial, hbuf⟩
  | responseDone =>
    exact ⟨hc, hm⟩

theorem relayInv_fold (evs : List RelayEvent) :
    ∀ (s : RelayState) (a : AbsState), RelayInv s a →
      RelayInv (List.foldl relayStep s evs) (List.foldl absStep a evs) := by
  induction evs with
  | nil => intro s a h; simpa using h
  | cons e t ih =>
    intro s a h
    simp only [List.foldl_cons]
    exact ih _ _ (relayInv_step s a e h)

/-! ### The claims -/

/-- Claim C1: whenever the standardized confirmation search succeeds on a
transcript, capturing date text `d` and time text `t`, and `d` parses as a
valid `MM-DD-YYYY` date while the inner time search extracts hour `H`,
minutes `Mi` and meridiem `mer` from `t`, the extraction result is fully
determined by `d` and `t` alone — regardless of any other date-like or
time-like text elsewhere in the transcript: the formatted date is `d`
reformatted to `DD-MM-YYYY` and the formatted time is `t` converted to the
24-hour clock. -/
theorem C1_standardized_priority
    (content : List Char) (now : PyNow) (full d t : List Char)
    (pd : PyDate) (H Mi : Nat) (mer : List Char)
    (h1 : stdSearch content = some (full, d, t))
    (h2 : pyStrptime_mdY d = some pd)
    (h3 : stdTimeParse t = some (H, Mi, mer)) :
    extractFromContent content now =
      ⟨pad2 pd.day ++ '-' :: (pad2 pd.month ++ '-' :: natChars pd.year),
       pad2 (if mer == "PM".data && H != 12 then H + 12
             else if mer == "AM".data && H == 12 then 0 else H) ++
         ':' :: pad2 Mi,
       d, t, full⟩ := by
  have hnt := no_tomorrow_of_strptime h2
  simp [extractFromContent, slotOf, h1, processSlot, formattedDateOf,
        parsedDateOf, hnt.1, hnt.2, h2, fmtDate_dmY, formattedTimeOf,
        stdTimeConvert, h3]

/-- Witness for C1: the spec's round-trip example, evaluated through the
whole pipeline. -/
theorem C1_standardized_priority_witness :
    extractFromContent contentConfirm nowOct2025 =
      ⟨"29-06-2025".data, "16:30".data, "06-29-2025".data, "04:30 PM".data,
       "confirm the interview on 06-29-2025 at 04:30 PM".data⟩ := by
  have h := C1_standardized_priority contentConfirm nowOct2025
    "confirm the interview on 06-29-2025 at 04:30 PM".data
    "06-29-2025".data "04:30 PM".data ⟨2025, 6, 29⟩ 4 30 "PM".data
    (by decide) (by decide) (by decide)
  exact h.trans (by decide)

/-- Claim C2 (divergence): on a transcript whose chosen date text is
`March 3rd` (no four-digit year) with now = 2025-10-01, the code produces
`03-03-2025`, not the claimed `03-03-2026`: the permissive parser fills
the missing year with the current year itself, so the `year == 1900`
placeholder guard on line 122 never fires and the roll-forward on
lines 126-127 is unreachable. -/
theorem C2_year_inference_divergence :
    extractFromContent contentMarch3 nowOct2025 =
      ⟨"03-03-2025".data, "10:00".data, "March 3rd".data, "10:00 AM".data,
       "March 3rd at 10:00 AM".data⟩ ∧
    (extractFromContent contentMarch3 nowOct2025).formatted_date ≠
      "03-03-2026".data := by
  exact ⟨by decide, by decide⟩

/-- Counterexample to claim C3: on a transcript with two legacy
`scheduled for …` confirmations and two time mentions, extraction returns
the first-mentioned date (`January 5th, 2041`), not the last-mentioned one
(`March 9th, 2042`); only the time is taken from the last mention. -/
theorem C3_counterexample :
    (extractFromContent contentTwoLegacy nowOct2025).raw_date_text =
      "January 5th, 2041".data ∧
    (extractFromContent contentTwoLegacy nowOct2025).formatted_date =
      "05-01-2041".data ∧
    (extractFromContent contentTwoLegacy nowOct2025).raw_time_text =
      "3:00 PM".data ∧
    (extractFromContent contentTwoLegacy nowOct2025).raw_date_text ≠
      "March 9th, 2042".data ∧
    (extractFromContent contentTwoLegacy nowOct2025).formatted_date ≠
      "09-03-2042".data := by
  exact ⟨by decide, by decide, by decide, by decide, by decide⟩

/-- Claim C3 as amended: with no standardized match, the legacy stage
returns the date captured by the first matching legacy pattern's leftmost
match — not the last date mention — while the time is the last time-like
substring of the whole transcript (empty when there is none). -/
theorem C3_amended_first_legacy_date_last_time
    (content : List Char) (now : PyNow) (full d : List Char)
    (h1 : stdSearch content = none)
    (h2 : legacySearchList legacyPatterns content = some (full, d)) :
    (extractFromContent content now).raw_date_text = d ∧
    (extractFromContent content now).raw_time_text =
      (timesOf content).getLastD [] ∧
    (extractFromContent content now).full_text = full := by
  simp [extractFromContent, slotOf, h1, h2, processSlot]

/-- Witness for the amended C3, on the two-confirmation transcript. -/
theorem C3_amended_witness :
    (extractFromContent contentTwoLegacy nowOct2025).raw_date_text =
      "January 5th, 2041".data ∧
    (extractFromContent contentTwoLegacy nowOct2025).raw_time_text =
      (timesOf contentTwoLegacy).getLastD [] ∧
    (extractFromContent contentTwoLegacy nowOct2025).full_text =
      "scheduled for January 5th, 2041".data :=
  C3_amended_first_legacy_date_last_time contentTwoLegacy nowOct2025
    "scheduled for January 5th, 2041".data "January 5th, 2041".data
    (by decide) (by decide)

/-- Counterexample to claim C4: after the events `delta "Hi"`, `done`,
`done` — an assistant response followed by a done event with no fresh
delta — the single buffered utterance `Hi` is written twice: two lines for
one produced utterance, so the artifact duplicates an utterance's text. -/
theorem C4_counterexample :
    (relayRun dupEvents).messages = [⟨.assistant, "Hi".data⟩] ∧
    (relayRun dupEvents).fileWrites =
      [(.assistant, "Hi".data), (.assistant, "Hi".data)] ∧
    ¬ (relayRun dupEvents).fileWrites.Nodup := by
  exact ⟨by decide, by decide, by decide⟩

/-- Claim C4 as amended: for every sequence of relay events, the number of
lines written to the transcript artifact equals the number of finalizing
events — caller transcript completions with non-blank text, plus assistant
done events arriving while the accumulated assistant buffer is non-blank.
Assistant deltas alone never write.  (A done event with no fresh delta
since the previous one re-finalizes the same buffer, so an utterance's
text can appear in more than one line.) -/
theorem C4_amended_write_count (evs : List RelayEvent) :
    (relayRun evs).fileWrites.length = countFinalizing evs := by
  have h := relayInv_fold evs relayState0 ⟨false, false, 0⟩
    (by exact ⟨rfl, by simp [relayState0]⟩)
  exact h.1.symm

/-- Claim C5: `close_transcript_file` is idempotent and total: the first
invocation on an open session writes the footer, closes the handle and
removes both registry entries; any invocation on a session whose handle
entry is gone — including a second trigger from the sibling relay task —
changes nothing. -/
theorem C5_close_idempotent (s : CloseState) :
    close_transcript_file (close_transcript_file s) =
      close_transcript_file s ∧
    (s.handleOpen = false → close_transcript_file s = s) ∧
    (s.handleOpen = true →
      close_transcript_file s =
        ⟨false, false, s.fileLines ++ [.footer], true⟩) := by
  by_cases h : s.handleOpen = true
  · refine ⟨?_, by simp [h], fun _ => by simp [close_transcript_file, h]⟩
    simp [close_transcript_file, h]
  · simp only [Bool.not_eq_true] at h
    refine ⟨?_, fun _ => by simp [close_transcript_file, h], by simp [h]⟩
    simp [close_transcript_file, h]

/-- Witness for C5 at concrete states: closing twice from an open state
equals closing once; closing an already-closed state is the identity; the
first close performs exactly the teardown effects. -/
theorem C5_close_idempotent_witness :
    close_transcript_file
        (close_transcript_file ⟨true, true, [.entry .user "hello".data], false⟩) =
      close_transcript_file ⟨true, true, [.entry .user "hello".data], false⟩ ∧
    close_transcript_file ⟨false, false, [.footer], true⟩ =
      ⟨false, false, [.footer], true⟩ ∧
    close_transcript_file ⟨true, true, [.entry .user "hello".data], false⟩ =
      ⟨false, false, [.entry .user "hello".data] ++ [.footer], true⟩ :=
  ⟨(C5_close_idempotent ⟨true, true, [.entry .user "hello".data], false⟩).1,
   (C5_close_idempotent ⟨false, false, [.footer], true⟩).2.1 rfl,
   (C5_close_idempotent ⟨true, true, [.entry .user "hello".data], false⟩).2.2 rfl⟩

/-- Claim C6: time normalization maps 12-hour inputs to 24-hour `HH:MM` in
both the standardized and the legacy branch: `12:00 AM` yields `00:00`,
`12:00 PM` yields `12:00`, the hour-only legacy input `4 PM` defaults
minutes to `00` and yields `16:00`, and for every matched PM hour other
than 12 the hour is increased by 12. -/
theorem C6_time_normalization :
    stdTimeConvert "12:00 AM".data = "00:00".data ∧
    stdTimeConvert "12:00 PM".data = "12:00".data ∧
    legacyTimeConvert "12:00 AM".data = "00:00".data ∧
    legacyTimeConvert "12:00 PM".data = "12:00".data ∧
    legacyTimeConvert "4 PM".data = "16:00".data ∧
    ∀ h : Nat, h < 100 → h ≠ 12 →
      stdTimeConvert (natChars h ++ ":30 PM".data) =
        pad2 (h + 12) ++ ":30".data ∧
      legacyTimeConvert (natChars h ++ " PM".data) =
        pad2 (h + 12) ++ ":00".data := by
  exact ⟨by decide, by decide, by decide, by decide, by decide, by decide⟩

/-- Witness for C6 at hour 4: both converters add 12 to a PM hour. -/
theorem C6_time_normalization_witness :
    stdTimeConvert (natChars 4 ++ ":30 PM".data) = pad2 (4 + 12) ++ ":30".data ∧
    legacyTimeConvert (natChars 4 ++ " PM".data) = pad2 (4 + 12) ++ ":00".data :=
  C6_time_normalization.2.2.2.2.2 4 (by decide) (by decide)

/-- Claim C7: parse failures are isolated per field.  If the chosen slot's
date candidate fails to parse, the result still carries the computed time
field and both raw texts, with only the formatted date empty; conversely a
slot whose time conversion comes back empty still gets its formatted date
and both raw texts.  In either case extraction returns a result (the
embedding is a total function — nothing propagates to the caller). -/
theorem C7_partial_failure_isolation :
    (∀ (content : List Char) (now : PyNow) (slot : Slot),
      slotOf content = some slot →
      parsedDateOf now slot = none →
      extractFromContent content now =
        ⟨[], formattedTimeOf slot, slot.date_text, slot.time_text,
         slot.full_match⟩) ∧
    (∀ (now : PyNow) (slot : Slot),
      formattedTimeOf slot = [] →
      processSlot now slot =
        ⟨formattedDateOf now slot, [], slot.date_text, slot.time_text,
         slot.full_match⟩) := by
  constructor
  · intro content now slot h1 h2
    simp [extractFromContent, h1, processSlot, formattedDateOf, h2]
  · intro now slot h
    simp [processSlot, h]

/-- Witness for C7: a standardized confirmation with invalid date
`13-40-2025` still yields the converted time `16:30` (and raw texts),
and a standardized slot whose time text `noon` defeats the inner time
search still yields its formatted date. -/
theorem C7_partial_failure_isolation_witness :
    extractFromContent contentBadDate nowOct2025 =
      ⟨[], formattedTimeOf ⟨"13-40-2025".data, "04:30 PM".data,
          "confirm the interview on 13-40-2025 at 04:30 PM".data,
          .standardized⟩,
       "13-40-2025".data, "04:30 PM".data,
       "confirm the interview on 13-40-2025 at 04:30 PM".data⟩ ∧
    processSlot nowOct2025 slotBadTime =
      ⟨formattedDateOf nowOct2025 slotBadTime, [], "06-29-2025".data,
       "noon".data, []⟩ :=
  ⟨C7_partial_failure_isolation.1 contentBadDate nowOct2025
      ⟨"13-40-2025".data, "04:30 PM".data,
       "confirm the interview on 13-40-2025 at 04:30 PM".data, .standardized⟩
      (by decide) (by decide),
   C7_partial_failure_isolation.2 nowOct2025 slotBadTime (by decide)⟩

/-- Claim C8: the legacy time normalization performs no range check on the
matched hour: on a legacy transcript whose last time-like substring is
`13 PM`, the result's formatted time is `25:00` — not a valid 24-hour
clock time. -/
theorem C8_unvalidated_hour :
    (extractFromContent contentThirteenPM nowOct2025).raw_time_text =
      "13 PM".data ∧
    (extractFromContent contentThirteenPM nowOct2025).formatted_time =
      "25:00".data := by
  exact ⟨by decide, by decide⟩

/-- Claim C9: the unanchored date candidates are accumulated grammar by
grammar, and the third grammar (any alphabetic word, whitespace, one or
two digits) matches non-date substrings: on a transcript containing
`15th of June of 2041` after a time mention, the candidate list ends with
`of 20` — matched inside the year — which becomes the raw date text. -/
theorem C9_loose_third_grammar :
    reFindall P_date1 contentJune15 = [] ∧
    reFindall P_date2 contentJune15 = ["15th of June of 2041".data] ∧
    reFindall P_date3 contentJune15 =
      ["At 10".data, "the 15th".data, "of 20".data] ∧
    datesOf contentJune15 =
      ["15th of June of 2041".data, "At 10".data, "the 15th".data,
       "of 20".data] ∧
    (extractFromContent contentJune15 nowOct2025).raw_date_text =
      "of 20".data := by
  exact ⟨by decide, by decide, by decide, by decide, by decide⟩

/-- Claim C10: when the transcript file does not exist,
`extract_interview_slot` returns `None` (not an empty-field result), and
`process_all_transcripts` silently omits that file from its returned
results. -/
theorem C10_missing_file
    (fs : List Char → Option (List Char)) (now : PyNow) (p : List Char)
    (pre post : List (List Char)) (h : fs p = none) :
    extract_interview_slot fs p now = none ∧
    process_all_transcripts fs now (pre ++ p :: post) =
      process_all_transcripts fs now (pre ++ post) := by
  constructor
  · simp [extract_interview_slot, h]
  · unfold process_all_transcripts
    rw [List.foldl_append, List.foldl_append, List.foldl_cons]
    congr 1
    simp [extract_interview_slot, h]

/-- Witness for C10: a file system with one readable transcript; the
missing file yields `None` and is dropped from the batch results. -/
theorem C10_missing_file_witness :
    extract_interview_slot fsOne "missing.txt".data nowOct2025 = none ∧
    process_all_transcripts fsOne nowOct2025
        ([] ++ "missing.txt".data :: ["a.txt".data]) =
      process_all_transcripts fsOne nowOct2025 ([] ++ ["a.txt".data]) :=
  C10_missing_file fsOne nowOct2025 "missing.txt".data [] ["a.txt".data]
    (by decide)
